import Mathlib

/-!
Verification development for the per-object region-statistics engine of
`cellprofiler/modules/measureobjectintensity.py` (`MeasureObjectIntensity.run`,
lines 220-364).  The engine takes an intensity image, a label matrix and an
optional mask and produces fourteen per-region statistics.

The embedding works on flattened (row-major) arrays, mirroring numpy semantics:
2D grids are `List (List _)` flattened by `join`; `scipy.ndimage` grouped
reductions (`nd.sum`, `nd.mean`, `nd.standard_deviation`, ...) are embedded by
their documented per-label semantics; numpy boolean-mask selection and fancy
assignment are embedded elementwise; `ndarray.sort()` is ascending sort.
Machine floats are modeled as exact extended rationals (`FVal`): finite values
carry a `ℚ`, plus `+inf`, `-inf` and `nan` with IEEE-754 special-value rules
for the operations the source performs (the inputs of interest here make every
float operation exact, so no rounding is involved).  Where the source takes a
square root (`np.sqrt`, `nd.standard_deviation`) we work with the radicand
(`..._sq` definitions): the square root is zero-, NaN- and Inf-preserving and
strictly monotone on nonnegative reals, so every claim proved about the
radicand (its classification as 0 / NaN / +inf, equalities, and order between
nonnegative values) transfers to the rooted value.
-/

namespace MOI

/-! ### Basic array operations (numpy semantics, row-major flattening) -/

/-- Row-major flattening of a 2D grid (`ndarray.flatten()` order). -/
def flat2 {α : Type} (g : List (List α)) : List α := g.flatten

/-- numpy boolean-mask selection `a[mask]`: keeps the entries at which the
mask is `true`, in row-major order (source lines 228, 240, 243). -/
def boolSelect {α : Type} (xs : List α) (m : List Bool) : List α :=
  ((xs.zip m).filter (fun p => p.2)).map Prod.fst

/-- numpy fancy assignment `a[mask] = z`: writes `z` at the entries at which
the mask is `true`.  The source performs this with `z = 0` on *copies* of the
image/label/outline arrays (lines 227, 239, 242); note that it writes where
the mask is `true`, i.e. at the *valid* pixels. -/
def maskSetZero {α : Type} (z : α) (xs : List α) (m : List Bool) : List α :=
  (xs.zip m).map (fun p => if p.2 then z else p.1)

/-- `np.cumsum` on a list of naturals: entry `i` is the sum of the first
`i + 1` entries. -/
def cumsum (l : List ℕ) : List ℕ :=
  (List.range l.length).map (fun i => (l.take (i + 1)).sum)

/-! ### scipy.ndimage grouped reductions

`nd.sum(vals, lbls, r)` etc. reduce the entries of `vals` lying at positions
where `lbls` equals `r`.  `regionVals` extracts exactly those entries
(order preserved). -/

/-- The entries of `vals` whose corresponding label is `r`. -/
def regionVals (vals : List ℚ) (lbls : List ℕ) (r : ℕ) : List ℚ :=
  ((vals.zip lbls).filter (fun p => p.2 == r)).map Prod.fst

/-- The number of pixels carrying label `r`. -/
def regionCount (lbls : List ℕ) (r : ℕ) : ℕ := lbls.count r

/-- `scipy.ndimage.sum` for one label value (sum of the region's entries;
0 for an empty region). -/
def nd_sum (vals : List ℚ) (lbls : List ℕ) (r : ℕ) : ℚ :=
  (regionVals vals lbls r).sum

/-- `scipy.ndimage.mean` for one label value: sum divided by pixel count.
(For an empty region the division is 0/0; `ℚ` renders it as 0 where the float
code produces NaN -- no claim below depends on the mean of an empty region.) -/
def nd_mean (vals : List ℚ) (lbls : List ℕ) (r : ℕ) : ℚ :=
  nd_sum vals lbls r / (regionCount lbls r : ℚ)

/-- `scipy.ndimage.minimum` for one label value (0 for an empty region, an
edge artifact no claim depends on). -/
def nd_min (vals : List ℚ) (lbls : List ℕ) (r : ℕ) : ℚ :=
  match regionVals vals lbls r with
  | [] => 0
  | x :: xs => xs.foldl min x

/-- `scipy.ndimage.maximum` for one label value. -/
def nd_max (vals : List ℚ) (lbls : List ℕ) (r : ℕ) : ℚ :=
  match regionVals vals lbls r with
  | [] => 0
  | x :: xs => xs.foldl max x

/-- The square of `scipy.ndimage.standard_deviation` for one label value, in
the computational form used by the library: mean of squares minus square of
the mean (the returned statistic is the square root of this). -/
def nd_standard_deviation_sq (vals : List ℚ) (lbls : List ℕ) (r : ℕ) : ℚ :=
  ((regionVals vals lbls r).map (fun x => x ^ 2)).sum / (regionCount lbls r : ℚ)
    - nd_mean vals lbls r ^ 2

/-! ### Extended float values

Exact model of the IEEE-754 special values that the mass-displacement
computation can produce (division by zero, infinity arithmetic).  Finite
values are exact rationals; for the operations performed by the source on the
inputs at issue, IEEE doubles are exact, so this model is faithful.
Signed zero is not modeled (the source never produces a negative zero on the
paths at issue). -/

inductive FVal : Type where
  | fin : ℚ → FVal
  | pinf : FVal
  | ninf : FVal
  | nan : FVal
deriving DecidableEq, Repr

namespace FVal

/-- IEEE addition on extended values. -/
def add : FVal → FVal → FVal
  | nan, _ => nan
  | _, nan => nan
  | pinf, ninf => nan
  | ninf, pinf => nan
  | pinf, _ => pinf
  | _, pinf => pinf
  | ninf, _ => ninf
  | _, ninf => ninf
  | fin a, fin b => fin (a + b)

/-- IEEE negation on extended values. -/
def neg : FVal → FVal
  | nan => nan
  | pinf => ninf
  | ninf => pinf
  | fin a => fin (-a)

/-- IEEE subtraction on extended values. -/
def sub (x y : FVal) : FVal := add x (neg y)

/-- IEEE multiplication on extended values. -/
def mul : FVal → FVal → FVal
  | nan, _ => nan
  | _, nan => nan
  | pinf, pinf => pinf
  | pinf, ninf => ninf
  | ninf, pinf => ninf
  | ninf, ninf => pinf
  | pinf, fin b => if 0 < b then pinf else if b < 0 then ninf else nan
  | fin a, pinf => if 0 < a then pinf else if a < 0 then ninf else nan
  | ninf, fin b => if 0 < b then ninf else if b < 0 then pinf else nan
  | fin a, ninf => if 0 < a then ninf else if a < 0 then pinf else nan
  | fin a, fin b => fin (a * b)

/-- IEEE division on extended values (unsigned zero: finite/0 follows the
sign of the numerator, 0/0 is NaN). -/
def div : FVal → FVal → FVal
  | nan, _ => nan
  | _, nan => nan
  | fin a, fin b =>
      if b = 0 then (if a = 0 then nan else if 0 < a then pinf else ninf)
      else fin (a / b)
  | fin _, pinf => fin 0
  | fin _, ninf => fin 0
  | pinf, fin b => if b < 0 then ninf else pinf
  | ninf, fin b => if b < 0 then pinf else ninf
  | _, _ => nan

end FVal

/-! ### The measurement pipeline (source lines 224-341)

Inputs: intensity image `img`, label matrix `labels` (both 2D grids of the
same shape) and optional mask `mask` (`true` = valid pixel). -/

/-- Source line 228 / 230: with a mask, `img = img[image.mask]` (row-major
selection of the pixels where the mask is true); without one, the flattened
image. -/
def imgSel (img : List (List ℚ)) (mask : Option (List (List Bool))) : List ℚ :=
  match mask with
  | none => flat2 img
  | some m => boolSelect (flat2 img) (flat2 m)

/-- Source line 240 / 245 for the label matrix. -/
def labelsSel (labels : List (List ℕ)) (mask : Option (List (List Bool))) : List ℕ :=
  match mask with
  | none => flat2 labels
  | some m => boolSelect (flat2 labels) (flat2 m)

/-- Source line 234: `nobjects = np.max(labels) + 1`, computed on the *full*
(unmasked) label matrix. -/
def nobjects (labels : List (List ℕ)) : ℕ :=
  (flat2 labels).foldr max 0 + 1

/-- Source lines 226-227 / 230 (flattened): `masked_image = img.copy();
masked_image[image.mask] = 0` -- note this zeroes the pixels where the mask is
*true* -- or an alias of `img` when there is no mask. -/
def masked_image_flat (img : List (List ℚ)) (mask : Option (List (List Bool))) : List ℚ :=
  match mask with
  | none => flat2 img
  | some m => maskSetZero 0 (flat2 img) (flat2 m)

/-- Source lines 238-239 / 245 (flattened) for the label matrix. -/
def masked_labels_flat (labels : List (List ℕ)) (mask : Option (List (List Bool))) : List ℕ :=
  match mask with
  | none => flat2 labels
  | some m => maskSetZero 0 (flat2 labels) (flat2 m)

/-- Source lines 271-272: `mesh_x` of `np.meshgrid(range(shape[1]),
range(shape[0]))`, flattened -- the column index of each pixel. -/
def coordsX (g : List (List ℚ)) : List ℚ :=
  (g.map (fun row => (List.range row.length).map (fun j => (j : ℚ)))).flatten

/-- Source lines 271-272: `mesh_y`, flattened -- the row index of each pixel. -/
def coordsY (g : List (List ℚ)) : List ℚ :=
  (g.enum.map (fun p => p.2.map (fun _ => (p.1 : ℚ)))).flatten

/-! #### Interior grouped statistics (lines 248-263, sliced at lines 318-335) -/

/-- `nd.sum(img, labels, r)` of line 248 for one label (the unsliced
integrated intensity, also the divisor of line 280-281). -/
def integrated_intensity_at (img : List (List ℚ)) (labels : List (List ℕ))
    (mask : Option (List (List Bool))) (r : ℕ) : ℚ :=
  nd_sum (imgSel img mask) (labelsSel labels mask) r

/-- `IntegratedIntensity`: lines 248-249 sliced by lines 318-319 / 330-331
(`[1:]` when `nobjects > 1`, empty otherwise). -/
def integrated_intensity (img : List (List ℚ)) (labels : List (List ℕ))
    (mask : Option (List (List Bool))) : List ℚ :=
  if 1 < nobjects labels then
    ((List.range (nobjects labels)).drop 1).map
      (nd_sum (imgSel img mask) (labelsSel labels mask))
  else []

/-- `MeanIntensity`: lines 252-253 sliced by line 320 / 332. -/
def mean_intensity (img : List (List ℚ)) (labels : List (List ℕ))
    (mask : Option (List (List Bool))) : List ℚ :=
  if 1 < nobjects labels then
    ((List.range (nobjects labels)).drop 1).map
      (nd_mean (imgSel img mask) (labelsSel labels mask))
  else []

/-- The square of `StdIntensity`: lines 256-257 sliced by line 321 / 333 (the
emitted statistic is the entrywise square root of this list). -/
def std_intensity_sq (img : List (List ℚ)) (labels : List (List ℕ))
    (mask : Option (List (List Bool))) : List ℚ :=
  if 1 < nobjects labels then
    ((List.range (nobjects labels)).drop 1).map
      (nd_standard_deviation_sq (imgSel img mask) (labelsSel labels mask))
  else []

/-- `MinIntensity`: line 260 sliced by line 322 / 334. -/
def min_intensity (img : List (List ℚ)) (labels : List (List ℕ))
    (mask : Option (List (List Bool))) : List ℚ :=
  if 1 < nobjects labels then
    ((List.range (nobjects labels)).drop 1).map
      (nd_min (imgSel img mask) (labelsSel labels mask))
  else []

/-- `MaxIntensity`: line 263 sliced by line 323 / 335. -/
def max_intensity (img : List (List ℚ)) (labels : List (List ℕ))
    (mask : Option (List (List Bool))) : List ℚ :=
  if 1 < nobjects labels then
    ((List.range (nobjects labels)).drop 1).map
      (nd_max (imgSel img mask) (labelsSel labels mask))
  else []

/-! #### Mass displacement (lines 266-286)

`cm_*` (line 273-274) and `cmi_*` (line 280-281) are float divisions, hence
`FVal`-valued; the sums feeding them are exact. -/

/-- Line 273: `cm_x = nd.mean(mesh_x, masked_labels, ...)` as a float
division (NaN for an empty region). -/
def cm_x (img : List (List ℚ)) (labels : List (List ℕ))
    (mask : Option (List (List Bool))) (r : ℕ) : FVal :=
  FVal.div (.fin (nd_sum (coordsX img) (masked_labels_flat labels mask) r))
    (.fin (regionCount (masked_labels_flat labels mask) r : ℚ))

/-- Line 274: `cm_y = nd.mean(mesh_y, masked_labels, ...)`. -/
def cm_y (img : List (List ℚ)) (labels : List (List ℕ))
    (mask : Option (List (List Bool))) (r : ℕ) : FVal :=
  FVal.div (.fin (nd_sum (coordsY img) (masked_labels_flat labels mask) r))
    (.fin (regionCount (masked_labels_flat labels mask) r : ℚ))

/-- Lines 276-277: `i_x = nd.sum(mesh_x * masked_image, masked_labels, ...)`. -/
def i_x (img : List (List ℚ)) (labels : List (List ℕ))
    (mask : Option (List (List Bool))) (r : ℕ) : ℚ :=
  nd_sum (List.zipWith (· * ·) (coordsX img) (masked_image_flat img mask))
    (masked_labels_flat labels mask) r

/-- Lines 278-279: `i_y = nd.sum(mesh_y * masked_image, masked_labels, ...)`. -/
def i_y (img : List (List ℚ)) (labels : List (List ℕ))
    (mask : Option (List (List Bool))) (r : ℕ) : ℚ :=
  nd_sum (List.zipWith (· * ·) (coordsY img) (masked_image_flat img mask))
    (masked_labels_flat labels mask) r

/-- Line 280: `cmi_x = i_x / integrated_intensity` (float division: 0/0 is
NaN, nonzero/0 is a signed infinity). -/
def cmi_x (img : List (List ℚ)) (labels : List (List ℕ))
    (mask : Option (List (List Bool))) (r : ℕ) : FVal :=
  FVal.div (.fin (i_x img labels mask r))
    (.fin (integrated_intensity_at img labels mask r))

/-- Line 281: `cmi_y = i_y / integrated_intensity`. -/
def cmi_y (img : List (List ℚ)) (labels : List (List ℕ))
    (mask : Option (List (List Bool))) (r : ℕ) : FVal :=
  FVal.div (.fin (i_y img labels mask r))
    (.fin (integrated_intensity_at img labels mask r))

/-- Lines 282-284 before the square root: for one region,
`diff_x * diff_x + diff_y * diff_y` where `diff_* = cm_* - cmi_*`.
The emitted `MassDisplacement` is `np.sqrt` of this, which maps `fin 0` to
`fin 0`, `pinf` to `pinf` and `nan` to `nan`. -/
def mass_displacement_sq_at (img : List (List ℚ)) (labels : List (List ℕ))
    (mask : Option (List (List Bool))) (r : ℕ) : FVal :=
  let dx := FVal.sub (cm_x img labels mask r) (cmi_x img labels mask r)
  let dy := FVal.sub (cm_y img labels mask r) (cmi_y img labels mask r)
  FVal.add (FVal.mul dx dx) (FVal.mul dy dy)

/-- `MassDisplacement` (squared): lines 270-286 -- computed for labels
`1 .. nobjects-1` (the `[1:]` slice of line 284) when `nobjects > 1`, an empty
sequence otherwise (line 286). -/
def mass_displacement_sq (img : List (List ℚ)) (labels : List (List ℕ))
    (mask : Option (List (List Bool))) : List FVal :=
  if 1 < nobjects labels then
    ((List.range (nobjects labels)).drop 1).map
      (mass_displacement_sq_at img labels mask)
  else []

/-! #### Order-statistic engine (lines 288-316) -/

/-- Lines 297-299: `areas = nd.sum(np.ones(labels.shape, int), labels,
range(nobjects))` on the (masked) selected labels -- the per-label pixel
counts, for labels `0 .. nobjects-1` (background included at index 0).
The source holds these as integral floats; we use `ℕ`. -/
def areasList (labels : List (List ℕ)) (mask : Option (List (List Bool))) : List ℕ :=
  (List.range (nobjects labels)).map (fun r => regionCount (labelsSel labels mask) r)

/-- Line 300: `indices = np.cumsum(areas)[:-1]`.  Entry `r-1` is the starting
rank of region `r` in the sorted composite-key array; it includes the
background area (index 0 of `areas`). -/
def indicesList (labels : List (List ℕ)) (mask : Option (List (List Bool))) : List ℕ :=
  (cumsum (areasList labels mask)).dropLast

/-- Lines 301-303: `ordered_image = (img + labels.astype(float)).flatten();
ordered_image.sort()` -- the globally sorted composite keys
(intensity + label, ascending). -/
def ordered_image (img : List (List ℚ)) (labels : List (List ℕ))
    (mask : Option (List (List Bool))) : List ℚ :=
  List.insertionSort (· ≤ ·)
    (List.zipWith (fun (x : ℚ) (l : ℕ) => x + (l : ℚ))
      (imgSel img mask) (labelsSel labels mask))

/-- Line 304: `indices_25 = (indices + areas[1:]/4 + .5).astype(int)`, entry
`r` (0-based; region `r+1`).  `astype(int)` truncates; all quantities are
nonnegative, so it is the floor. -/
def idx25 (labels : List (List ℕ)) (mask : Option (List (List Bool))) (r : ℕ) : ℕ :=
  Nat.floor (((indicesList labels mask).getD r 0 : ℚ)
    + ((areasList labels mask).getD (r + 1) 0 : ℚ) / 4 + 1/2)

/-- Line 305: `indices_50 = (indices + areas[1:]/2 + .5).astype(int)`. -/
def idx50 (labels : List (List ℕ)) (mask : Option (List (List Bool))) (r : ℕ) : ℕ :=
  Nat.floor (((indicesList labels mask).getD r 0 : ℚ)
    + ((areasList labels mask).getD (r + 1) 0 : ℚ) / 2 + 1/2)

/-- Line 306: `indices_75 = (indices + 3*areas[1:]/4 + .5).astype(int)`. -/
def idx75 (labels : List (List ℕ)) (mask : Option (List (List Bool))) (r : ℕ) : ℕ :=
  Nat.floor (((indicesList labels mask).getD r 0 : ℚ)
    + 3 * ((areasList labels mask).getD (r + 1) 0 : ℚ) / 4 + 1/2)

/-- `LowerQuartileIntensity`: lines 307-308 (`ordered_image[indices_25] -
range(1, nobjects)`) when `nobjects > 1`, else the empty sequence of line 314.
numpy raises `IndexError` on an out-of-bounds gather; the model totalizes the
read with `getD _ 0` (the in-bounds question is settled separately). -/
def lower_quartile_intensity (img : List (List ℚ)) (labels : List (List ℕ))
    (mask : Option (List (List Bool))) : List ℚ :=
  if 1 < nobjects labels then
    (List.range (nobjects labels - 1)).map
      (fun r => (ordered_image img labels mask).getD (idx25 labels mask r) 0 - ((r + 1 : ℕ) : ℚ))
  else []

/-- `MedianIntensity`: lines 309-310 / 315. -/
def median_intensity (img : List (List ℚ)) (labels : List (List ℕ))
    (mask : Option (List (List Bool))) : List ℚ :=
  if 1 < nobjects labels then
    (List.range (nobjects labels - 1)).map
      (fun r => (ordered_image img labels mask).getD (idx50 labels mask r) 0 - ((r + 1 : ℕ) : ℚ))
  else []

/-- `UpperQuartileIntensity`: lines 311-312 / 316. -/
def upper_quartile_intensity (img : List (List ℚ)) (labels : List (List ℕ))
    (mask : Option (List (List Bool))) : List ℚ :=
  if 1 < nobjects labels then
    (List.range (nobjects labels - 1)).map
      (fun r => (ordered_image img labels mask).getD (idx75 labels mask r) 0 - ((r + 1 : ℕ) : ℚ))
  else []

/-! ### Definitions taken from the specification's words (for refinement
claims; clearly marked, to be compared with the source-derived ones above) -/

/-- Spec formula (claim C4): the starting rank of region `r` as the sum of
the areas of regions `1 .. r-1` only, background excluded. -/
def spec_start_excl_bg (labels : List (List ℕ)) (mask : Option (List (List Bool)))
    (r : ℕ) : ℕ :=
  (((areasList labels mask).drop 1).take (r - 1)).sum

/-- Source-derived starting rank of region `r` (1-based): entry `r-1` of
`indices` (line 300). -/
def startingRank (labels : List (List ℕ)) (mask : Option (List (List Bool)))
    (r : ℕ) : ℕ :=
  (indicesList labels mask).getD (r - 1) 0

/-- Spec formula (claim C8): population variance -- the mean of squared
deviations from the region mean, dividing by the pixel count. -/
def popVariance (vals : List ℚ) (lbls : List ℕ) (r : ℕ) : ℚ :=
  ((regionVals vals lbls r).map (fun x => (x - nd_mean vals lbls r) ^ 2)).sum
    / (regionCount lbls r : ℚ)

/-- Sample variance (divide by count minus one) -- the formula the claim C8
rules out. -/
def sampleVariance (vals : List ℚ) (lbls : List ℕ) (r : ℕ) : ℚ :=
  ((regionVals vals lbls r).map (fun x => (x - nd_mean vals lbls r) ^ 2)).sum
    / ((regionCount lbls r : ℚ) - 1)

/-! ### Heap model of the `run` body (frame claim C10)

Arrays live in a heap `ℕ → List ℚ`; the two inputs sit at addresses 0 (the
intensity image) and 1 (the label matrix), both flattened (labels cast to
`ℚ`; the mask is only ever read, never assigned to, and is passed as a pure
value).  Each numpy expression that allocates (`copy()`, boolean selection,
arithmetic, `meshgrid`, `flatten()`) becomes a `Function.update` at a *fresh*
address; each in-place operation (fancy assignment `a[mask] = 0`,
`ndarray.sort()`) becomes a `Function.update` at the address of the array it
mutates.  The outline computation (`cpmo.outline`, line 235; its source is
outside this repository) only matters here as an allocation, so it is an
arbitrary function parameter. -/

/-- The heap produced by one (image, object) iteration of `run` when the
image has a mask (source lines 224-246, 271-272, 296-303).  Comments give the
source line of each step. -/
def runHeapMasked (img labels : List ℚ) (m : List Bool)
    (outlineFn : List ℚ → List ℚ) : ℕ → List ℚ :=
  let h0 : ℕ → List ℚ := fun n => if n = 0 then img else if n = 1 then labels else []
  -- line 226: masked_image = img.copy()            (fresh address 2)
  let h1 := Function.update h0 2 (h0 0)
  -- line 227: masked_image[image.mask] = 0         (in-place write at 2)
  let h2 := Function.update h1 2 (maskSetZero 0 (h1 2) m)
  -- line 228: img = img[image.mask]                (fresh address 3)
  let h3 := Function.update h2 3 (boolSelect (h2 0) m)
  -- line 235: outlines = cpmo.outline(labels)      (fresh address 4)
  let h4 := Function.update h3 4 (outlineFn (h3 1))
  -- line 238: masked_labels = labels.copy()        (fresh address 5)
  let h5 := Function.update h4 5 (h4 1)
  -- line 239: masked_labels[image.mask] = 0        (in-place write at 5)
  let h6 := Function.update h5 5 (maskSetZero 0 (h5 5) m)
  -- line 240: labels = labels[image.mask]          (fresh address 6)
  let h7 := Function.update h6 6 (boolSelect (h6 1) m)
  -- line 241: masked_outlines = outlines.copy()    (fresh address 7)
  let h8 := Function.update h7 7 (h7 4)
  -- line 242: masked_outlines[image.mask] = 0      (in-place write at 7)
  let h9 := Function.update h8 7 (maskSetZero 0 (h8 7) m)
  -- line 243: outlines = outlines[image.mask]      (fresh address 8)
  let h10 := Function.update h9 8 (boolSelect (h9 4) m)
  -- lines 271-272: mesh_x, mesh_y = np.meshgrid(...) (fresh addresses 9, 10)
  let h11 := Function.update h10 9 ((List.range (h10 2).length).map (fun j => (j : ℚ)))
  let h12 := Function.update h11 10 ((List.range (h11 2).length).map (fun j => (j : ℚ)))
  -- line 301: ordered_image = img + labels.astype(float) (fresh address 11)
  let h13 := Function.update h12 11 (List.zipWith (· + ·) (h12 3) (h12 6))
  -- line 302: ordered_image = ordered_image.flatten()   (fresh address 12)
  let h14 := Function.update h13 12 (h13 11)
  -- line 303: ordered_image.sort()                  (in-place write at 12)
  Function.update h14 12 (List.insertionSort (· ≤ ·) (h14 12))

/-- The heap produced by one iteration of `run` when the image has no mask:
`masked_image` (line 230), `masked_labels` and `masked_outlines` (lines
245-246) are *aliases* of the inputs and of `outlines`, so they allocate
nothing and are never written; `ordered_image` (line 301) is a fresh array
and the only one sorted in place. -/
def runHeapNoMask (img labels : List ℚ) (outlineFn : List ℚ → List ℚ) :
    ℕ → List ℚ :=
  let h0 : ℕ → List ℚ := fun n => if n = 0 then img else if n = 1 then labels else []
  -- line 235: outlines = cpmo.outline(labels)      (fresh address 2)
  let h1 := Function.update h0 2 (outlineFn (h0 1))
  -- lines 271-272: mesh_x, mesh_y                   (fresh addresses 3, 4)
  let h2 := Function.update h1 3 ((List.range (h1 0).length).map (fun j => (j : ℚ)))
  let h3 := Function.update h2 4 ((List.range (h2 0).length).map (fun j => (j : ℚ)))
  -- line 301: ordered_image = img + labels.astype(float) (fresh address 5)
  let h4 := Function.update h3 5 (List.zipWith (· + ·) (h3 0) (h3 1))
  -- line 302: .flatten()                            (fresh address 6)
  let h5 := Function.update h4 6 (h4 5)
  -- line 303: ordered_image.sort()                  (in-place write at 6)
  Function.update h5 6 (List.insertionSort (· ≤ ·) (h5 6))

/-! ### Concrete inputs used by the claims -/

/-- The spec's end-to-end example: 3x3 intensity image. -/
def exImg : List (List ℚ) := [[0,0,10],[0,20,30],[5,5,5]]

/-- The spec's end-to-end example: 3x3 label matrix. -/
def exLab : List (List ℕ) := [[0,0,1],[0,1,1],[2,2,2]]

/-- Single-region (N=1) input: 2x3 image, all intensities 0. -/
def oneRegImg : List (List ℚ) := [[0,0,0],[0,0,0]]

/-- Single-region (N=1) input: its only region has area 3, so all quantile
indices are in bounds. -/
def oneRegLab : List (List ℕ) := [[1,1,1],[0,0,0]]

/-- Mixed-sign intensity input: region 1 (area 4) has intensities
0, 1, -1, 0, so its integrated intensity is 0 while the coordinate-weighted
sums `i_x = 1` and `i_y = -1` are nonzero. -/
def mixImg : List (List ℚ) := [[0,1],[-1,0],[0,0]]

/-- Label matrix for `mixImg`. -/
def mixLab : List (List ℕ) := [[1,1],[1,1],[0,0]]

/-- 1x3 all-ones image for the mask-polarity bug input. -/
def maskBugImg : List (List ℚ) := [[1,1,1]]

/-- 1x3 single-region label matrix for the mask-polarity bug input. -/
def maskBugLab : List (List ℕ) := [[1,1,1]]

/-- An all-true mask (every pixel valid). -/
def allTrueMask : List (List Bool) := [[true,true,true]]

/-- 2x2 intensity image for the out-of-bounds input of claim C5. -/
def oobImg : List (List ℚ) := [[1,2],[3,4]]

/-- 2x2 label matrix whose highest-id region (label 1) has exactly one
pixel. -/
def oobLab : List (List ℕ) := [[0,0],[0,1]]

/-- The in-bounds condition for the order-statistic gather of lines 307-312:
every quantile index of every region lies inside the sorted composite-key
array (numpy raises `IndexError` otherwise). -/
def quantileIdxInBounds (img : List (List ℚ)) (labels : List (List ℕ))
    (mask : Option (List (List Bool))) : Prop :=
  ∀ r < nobjects labels - 1,
    idx25 labels mask r < (ordered_image img labels mask).length ∧
    idx50 labels mask r < (ordered_image img labels mask).length ∧
    idx75 labels mask r < (ordered_image img labels mask).length

/-! ### Supporting lemmas -/

theorem sum_range_indicator (x n : ℕ) (h : x < n) :
    ((List.range n).map (fun r => if x = r then 1 else 0)).sum = 1 := by
  induction n with
  | zero => omega
  | succ n ih =>
    rw [List.range_succ, List.map_append, List.sum_append]
    rcases Nat.lt_succ_iff_lt_or_eq.mp h with h2 | h2
    · rw [ih h2]
      simp [Nat.ne_of_lt h2]
    · subst h2
      have hz : ((List.range x).map (fun r => if x = r then 1 else 0)).sum = 0 := by
        apply List.sum_eq_zero
        intro y hy
        simp only [List.mem_map, List.mem_range] at hy
        obtain ⟨r, hr, rfl⟩ := hy
        simp [Nat.ne_of_gt hr]
      simp [hz]

theorem sum_range_count (l : List ℕ) (n : ℕ) (h : ∀ x ∈ l, x < n) :
    ((List.range n).map (fun r => l.count r)).sum = l.length := by
  induction l with
  | nil => simp
  | cons x xs ih =>
    have hx : x < n := h x (List.mem_cons_self x xs)
    have hxs : ∀ y ∈ xs, y < n := fun y hy => h y (List.mem_cons_of_mem _ hy)
    simp only [List.count_cons, beq_iff_eq, List.sum_map_add]
    rw [ih hxs, sum_range_indicator x n hx, List.length_cons]

theorem le_foldr_max (l : List ℕ) (x : ℕ) (h : x ∈ l) : x ≤ l.foldr max 0 := by
  induction l with
  | nil => cases h
  | cons y ys ih =>
    rcases List.mem_cons.mp h with rfl | h2
    · exact le_max_left _ _
    · exact le_trans (ih h2) (le_max_right _ _)

theorem labelsSel_lt_nobjects (labels : List (List ℕ)) (mask : Option (List (List Bool))) :
    ∀ x ∈ labelsSel labels mask, x < nobjects labels := by
  intro x hx
  have hx2 : x ∈ flat2 labels := by
    cases mask with
    | none => exact hx
    | some m =>
      simp only [labelsSel, boolSelect, List.mem_map, List.mem_filter] at hx
      obtain ⟨⟨a, b⟩, ⟨hmem, _⟩, rfl⟩ := hx
      exact (List.of_mem_zip hmem).1
  have := le_foldr_max (flat2 labels) x hx2
  simp only [nobjects]
  omega

/-- The per-label areas of the order-statistic engine sum to the number of
masked pixels. -/
theorem areasList_sum (labels : List (List ℕ)) (mask : Option (List (List Bool))) :
    (areasList labels mask).sum = (labelsSel labels mask).length := by
  have h := sum_range_count (labelsSel labels mask) (nobjects labels)
    (labelsSel_lt_nobjects labels mask)
  simpa [areasList, regionCount] using h

theorem areasList_length (labels : List (List ℕ)) (mask : Option (List (List Bool))) :
    (areasList labels mask).length = nobjects labels := by
  simp [areasList]

theorem one_le_nobjects (labels : List (List ℕ)) : 1 ≤ nobjects labels := by
  simp [nobjects]

theorem getD_map_range {α : Type} (f : ℕ → α) {n r : ℕ} (h : r < n) (d : α) :
    ((List.range n).map f).getD r d = f r := by
  rw [List.getD_eq_getElem _ _ (by simpa using h)]
  simp

theorem getD_map_drop_range {α : Type} (f : ℕ → α) {n r : ℕ} (h : r < n - 1) (d : α) :
    (((List.range n).drop 1).map f).getD r d = f (1 + r) := by
  have hlen : r < (((List.range n).drop 1).map f).length := by simpa using h
  rw [List.getD_eq_getElem _ _ hlen, List.getElem_map, List.getElem_drop, List.getElem_range]

theorem cumsum_getD (l : List ℕ) (i : ℕ) (h : i < l.length) :
    (cumsum l).getD i 0 = (l.take (i + 1)).sum := by
  rw [cumsum, getD_map_range _ h]

theorem indicesList_getD (labels : List (List ℕ)) (mask : Option (List (List Bool)))
    (i : ℕ) (h : i < nobjects labels - 1) :
    (indicesList labels mask).getD i 0 = ((areasList labels mask).take (i + 1)).sum := by
  have hlen : i < (cumsum (areasList labels mask)).dropLast.length := by
    simp [cumsum, areasList, List.length_dropLast]
    omega
  rw [indicesList, List.getD_eq_getElem _ _ hlen, List.getElem_dropLast,
    ← List.getD_eq_getElem _ 0, cumsum_getD]
  rw [areasList_length]
  omega

theorem take_sum_split (l : List ℕ) (r : ℕ) (hl : l ≠ []) (hr : 1 ≤ r) :
    (l.take r).sum = l.getD 0 0 + ((l.drop 1).take (r - 1)).sum := by
  cases l with
  | nil => exact absurd rfl hl
  | cons a t =>
    cases r with
    | zero => omega
    | succ r2 => simp [List.take_succ_cons]

/-- For a list of length `n + 1`, the sum of the first `n` entries plus the
last entry is the total sum. -/
theorem take_sum_last (l : List ℕ) (n : ℕ) (hl : l.length = n + 1) :
    (l.take n).sum + l.getD n 0 = l.sum := by
  have hn : n < l.length := by omega
  have hdrop : l.drop n = [l.getD n 0] := by
    rw [List.drop_eq_getElem_cons hn, List.getD_eq_getElem _ _ hn]
    have : l.drop (n + 1) = [] := by
      apply List.drop_eq_nil_of_le
      omega
    rw [this]
  have := List.sum_take_add_sum_drop l n
  rw [hdrop] at this
  simpa using this

theorem sorted_getD_mono {l : List ℚ} (hs : l.Sorted (· ≤ ·)) {i j : ℕ}
    (hij : i ≤ j) (hj : j < l.length) : l.getD i 0 ≤ l.getD j 0 := by
  have hi : i < l.length := Nat.lt_of_le_of_lt hij hj
  rw [List.getD_eq_getElem _ _ hi, List.getD_eq_getElem _ _ hj]
  rcases lt_or_eq_of_le hij with h | h
  · have := List.pairwise_iff_get.mp hs ⟨i, hi⟩ ⟨j, hj⟩ h
    simpa using this
  · subst h
    exact le_refl _

theorem ordered_image_length (img : List (List ℚ)) (labels : List (List ℕ))
    (mask : Option (List (List Bool)))
    (h : (imgSel img mask).length = (labelsSel labels mask).length) :
    (ordered_image img labels mask).length = (labelsSel labels mask).length := by
  rw [ordered_image, List.length_insertionSort, List.length_zipWith, h, min_self]

theorem regionVals_length (vals : List ℚ) (lbls : List ℕ) (r : ℕ)
    (h : lbls.length ≤ vals.length) :
    (regionVals vals lbls r).length = regionCount lbls r := by
  induction lbls generalizing vals with
  | nil => simp [regionVals, regionCount]
  | cons b bs ih =>
    cases vals with
    | nil => simp at h
    | cons a as =>
      have h2 : bs.length ≤ as.length := by simpa using h
      have ihr := ih as h2
      by_cases hb : (b == r) = true
      · simp only [regionVals, regionCount, List.zip_cons_cons, List.filter_cons, hb,
          List.count_cons, if_true, List.map_cons, List.length_cons] at ihr ⊢
        omega
      · have hb2 : (b == r) = false := by simpa using hb
        simp only [regionVals, regionCount, List.zip_cons_cons, List.filter_cons, hb2,
          List.count_cons, Bool.false_eq_true, if_false] at ihr ⊢
        omega

theorem sq_dev_sum (l : List ℚ) (c : ℚ) :
    (l.map (fun x => (x - c) ^ 2)).sum
      = (l.map (fun x => x ^ 2)).sum - 2 * c * l.sum + l.length * c ^ 2 := by
  induction l with
  | nil => simp
  | cons a t ih =>
    simp only [List.map_cons, List.sum_cons, ih, List.length_cons]
    push_cast
    ring

/-! #### FVal computation lemmas -/

theorem FVal_sub_nan (x : FVal) : FVal.sub x FVal.nan = FVal.nan := by
  cases x <;> rfl

theorem FVal_add_nan (x : FVal) : FVal.add x FVal.nan = FVal.nan := by
  cases x <;> rfl

theorem FVal_nan_add (x : FVal) : FVal.add FVal.nan x = FVal.nan := by
  cases x <;> rfl

theorem FVal_mul_nan (x : FVal) : FVal.mul x FVal.nan = FVal.nan := by
  cases x <;> rfl

theorem FVal_nan_mul (x : FVal) : FVal.mul FVal.nan x = FVal.nan := by
  cases x <;> rfl

theorem FVal_div_zero_zero : FVal.div (FVal.fin 0) (FVal.fin 0) = FVal.nan := by
  simp [FVal.div]

theorem floor_nat_add_q (c : ℕ) (x : ℚ) (hx : 0 ≤ x) :
    Nat.floor ((c : ℚ) + x) = c + Nat.floor x := by
  rw [show (c : ℚ) + x = x + (c : ℚ) by ring, Nat.floor_add_nat hx, Nat.add_comm]

/-! ### Claim theorems -/

/-- Claim C1, counterexample.  On the spec's 3x3 example (intensities 0..30,
labels 0..2) the code's composite-key quantile trick breaks down -- the
intensities exceed the one-unit span the additive key assumes -- and the
returned `MedianIntensity` values are 6 and 29, not the claimed 20 and 5. -/
theorem claim_C1_counterexample :
    median_intensity exImg exLab none = [6, 29] ∧
    median_intensity exImg exLab none ≠ [20, 5] := by
  have h : median_intensity exImg exLab none = [6, 29] := by
    norm_num [median_intensity, exImg, exLab, nobjects, flat2, ordered_image, imgSel,
      labelsSel, idx50, indicesList, areasList, cumsum, regionCount, List.count,
      List.insertionSort, List.orderedInsert, List.range_succ]
  refine ⟨h, ?_⟩
  rw [h]
  intro hc
  norm_num at hc

/-- Claim C1, amended.  On the 3x3 example the code returns
`IntegratedIntensity = [60, 15]`, `MeanIntensity = [20, 5]`,
`MinIntensity = [10, 5]`, `MaxIntensity = [30, 5]` as claimed, region 2's
`MassDisplacement` is 0 (uniform intensity; the squared displacement is
`fin 0` and `np.sqrt` preserves it), but `MedianIntensity = [6, 29]`: with
intensities of magnitude >= 1 the global sort mixes the regions' composite
keys, so the claimed medians 20 and 5 are not produced. -/
theorem claim_C1_end_to_end :
    integrated_intensity exImg exLab none = [60, 15] ∧
    mean_intensity exImg exLab none = [20, 5] ∧
    min_intensity exImg exLab none = [10, 5] ∧
    max_intensity exImg exLab none = [30, 5] ∧
    median_intensity exImg exLab none = [6, 29] ∧
    (mass_displacement_sq exImg exLab none).getD 1 FVal.nan = FVal.fin 0 := by
  refine ⟨?_, ?_, ?_, ?_, ?_, ?_⟩
  · norm_num [integrated_intensity, exImg, exLab, nobjects, flat2, imgSel, labelsSel,
      nd_sum, regionVals, List.range_succ]
  · norm_num [mean_intensity, exImg, exLab, nobjects, flat2, imgSel, labelsSel,
      nd_mean, nd_sum, regionVals, regionCount, List.count, List.range_succ]
  · norm_num [min_intensity, exImg, exLab, nobjects, flat2, imgSel, labelsSel,
      nd_min, regionVals, List.range_succ]
  · norm_num [max_intensity, exImg, exLab, nobjects, flat2, imgSel, labelsSel,
      nd_max, regionVals, List.range_succ]
  · norm_num [median_intensity, exImg, exLab, nobjects, flat2, ordered_image, imgSel,
      labelsSel, idx50, indicesList, areasList, cumsum, regionCount, List.count,
      List.insertionSort, List.orderedInsert, List.range_succ]
  · norm_num [mass_displacement_sq, mass_displacement_sq_at, cm_x, cm_y, i_x, i_y,
      cmi_x, cmi_y, integrated_intensity_at, masked_image_flat, masked_labels_flat,
      coordsX, coordsY, List.enum, List.enumFrom, List.replicate_succ, exImg, exLab,
      nobjects, flat2, imgSel, labelsSel, nd_sum, nd_mean, regionVals, regionCount,
      List.count, List.range_succ, FVal.div, FVal.sub, FVal.add, FVal.mul, FVal.neg]

/-- Claim C2, counterexample.  With exactly one region (N = 1 so
`nobjects = 2 > 1`), the `nobjects > 1` branches run and the
`MassDisplacement` and quantile sequences have length 1, not 0 as claimed
(length 0 occurs only when there is no region at all). -/
theorem claim_C2_counterexample :
    (mass_displacement_sq oneRegImg oneRegLab none).length = 1 ∧
    (lower_quartile_intensity oneRegImg oneRegLab none).length = 1 ∧
    (median_intensity oneRegImg oneRegLab none).length = 1 ∧
    (upper_quartile_intensity oneRegImg oneRegLab none).length = 1 ∧
    (integrated_intensity oneRegImg oneRegLab none).length = 1 ∧
    ¬ ((median_intensity oneRegImg oneRegLab none).length = 0) := by
  refine ⟨?_, ?_, ?_, ?_, ?_, ?_⟩ <;>
    simp [mass_displacement_sq, lower_quartile_intensity, median_intensity,
      upper_quartile_intensity, integrated_intensity, oneRegImg, oneRegLab,
      nobjects, flat2]

/-- Claim C2, amended.  For every input with exactly one non-background
region (`nobjects = 2`) on which the quantile gather stays in bounds, *all*
fourteen sequences -- mass displacement and the three quantile sequences
included -- have length 1, the same as the interior sum/mean/min/max. -/
theorem claim_C2_single_region_lengths (img : List (List ℚ)) (labels : List (List ℕ))
    (mask : Option (List (List Bool)))
    (hN : nobjects labels = 2) (hq : quantileIdxInBounds img labels mask) :
    (mass_displacement_sq img labels mask).length = 1 ∧
    (lower_quartile_intensity img labels mask).length = 1 ∧
    (median_intensity img labels mask).length = 1 ∧
    (upper_quartile_intensity img labels mask).length = 1 ∧
    (integrated_intensity img labels mask).length = 1 ∧
    (mean_intensity img labels mask).length = 1 ∧
    (min_intensity img labels mask).length = 1 ∧
    (max_intensity img labels mask).length = 1 := by
  refine ⟨?_, ?_, ?_, ?_, ?_, ?_, ?_, ?_⟩ <;>
    simp [mass_displacement_sq, lower_quartile_intensity, median_intensity,
      upper_quartile_intensity, integrated_intensity, mean_intensity, min_intensity,
      max_intensity, hN]

/-- Claim C2, witness: the single-region input `oneRegLab` (one region of
area 3) satisfies the hypotheses of `claim_C2_single_region_lengths` and
gets length-1 median and mass-displacement sequences. -/
theorem claim_C2_single_region_lengths_witness :
    nobjects oneRegLab = 2 ∧
    (median_intensity oneRegImg oneRegLab none).length = 1 ∧
    (mass_displacement_sq oneRegImg oneRegLab none).length = 1 := by
  have hN : nobjects oneRegLab = 2 := by decide
  have hq : quantileIdxInBounds oneRegImg oneRegLab none := by
    intro r hr
    have hr1 : r < 1 := by
      simpa [nobjects, flat2, oneRegLab] using hr
    have hr0 : r = 0 := by omega
    subst hr0
    refine ⟨?_, ?_, ?_⟩ <;>
      norm_num [idx25, idx50, idx75, indicesList, areasList, cumsum, regionCount,
        labelsSel, oneRegLab, oneRegImg, nobjects, flat2, List.count, List.range_succ,
        ordered_image, imgSel, List.insertionSort, List.orderedInsert, Nat.floor_lt]
  exact ⟨hN, (claim_C2_single_region_lengths oneRegImg oneRegLab none hN hq).2.2.1,
    (claim_C2_single_region_lengths oneRegImg oneRegLab none hN hq).1⟩

/-- Claim C3 (mask polarity bug), evaluated at the failing input.  Source
line 227 writes `masked_image[image.mask] = 0`, zeroing the pixels where the
mask is *true* -- the valid ones -- while line 228 (`img = img[image.mask]`)
treats true as valid.  Consequence: with an all-true mask the
mass-displacement pass sees all-zero image and label views and returns NaN,
while the absent mask -- claimed to be equivalent -- returns 0. -/
theorem claim_C3_mask_polarity_bug :
    mass_displacement_sq maskBugImg maskBugLab (some allTrueMask) = [FVal.nan] ∧
    mass_displacement_sq maskBugImg maskBugLab none = [FVal.fin 0] ∧
    FVal.nan ≠ FVal.fin 0 := by
  refine ⟨?_, ?_, by simp⟩ <;>
    norm_num [mass_displacement_sq, mass_displacement_sq_at, cm_x, cm_y, i_x, i_y,
      cmi_x, cmi_y, integrated_intensity_at, masked_image_flat, masked_labels_flat,
      coordsX, coordsY, List.enum, List.enumFrom, List.replicate_succ, maskBugImg,
      maskBugLab, allTrueMask, nobjects, flat2, imgSel, labelsSel, boolSelect,
      maskSetZero, nd_sum, nd_mean, regionVals, regionCount, List.count,
      List.range_succ, FVal.div, FVal.sub, FVal.add, FVal.mul, FVal.neg]

/-- Claim C4, counterexample.  On the 3x3 example the starting rank of
region 1 is 3 -- the *background* area -- whereas the claimed formula (sum of
the areas of regions 1 through r-1 only, background excluded) gives 0. -/
theorem claim_C4_counterexample :
    startingRank exLab none 1 = 3 ∧ spec_start_excl_bg exLab none 1 = 0 ∧
    startingRank exLab none 1 ≠ spec_start_excl_bg exLab none 1 := by
  refine ⟨?_, ?_, ?_⟩ <;> decide

/-- Claim C4, amended.  The starting rank of region `r` is the *background
area plus* the sum of the areas of regions `1 .. r-1` (the code's
`cumsum(areas)[:-1]` runs over `areas[0..r-1]` and `areas[0]` is the
background count); each quantile `q` in `{1/4, 1/2, 3/4}` is then read at
index `start + floor(area[r]*q + 1/2)` of the sorted composite-key array,
and the region's label value `r` is subtracted from the sorted value. -/
theorem claim_C4_rank_formula (img : List (List ℚ)) (labels : List (List ℕ))
    (mask : Option (List (List Bool))) (r : ℕ)
    (h1 : 1 ≤ r) (h2 : r < nobjects labels) :
    startingRank labels mask r
      = (areasList labels mask).getD 0 0 + spec_start_excl_bg labels mask r ∧
    idx25 labels mask (r - 1) = startingRank labels mask r
      + Nat.floor (((areasList labels mask).getD r 0 : ℚ) / 4 + 1 / 2) ∧
    idx50 labels mask (r - 1) = startingRank labels mask r
      + Nat.floor (((areasList labels mask).getD r 0 : ℚ) / 2 + 1 / 2) ∧
    idx75 labels mask (r - 1) = startingRank labels mask r
      + Nat.floor (3 * ((areasList labels mask).getD r 0 : ℚ) / 4 + 1 / 2) ∧
    (median_intensity img labels mask).getD (r - 1) 0
      = (ordered_image img labels mask).getD (idx50 labels mask (r - 1)) 0 - (r : ℚ) := by
  have hN : 1 < nobjects labels := by omega
  have hsub : r - 1 + 1 = r := Nat.sub_add_cancel h1
  have hidx : r - 1 < nobjects labels - 1 := by omega
  have hne : areasList labels mask ≠ [] := by
    have hlen := areasList_length labels mask
    have hone := one_le_nobjects labels
    intro hnil
    rw [hnil] at hlen
    simp at hlen
    omega
  have hstart : startingRank labels mask r
      = (areasList labels mask).getD 0 0 + spec_start_excl_bg labels mask r := by
    rw [startingRank, indicesList_getD labels mask (r - 1) hidx, hsub,
      take_sum_split _ r hne h1, spec_start_excl_bg]
  refine ⟨hstart, ?_, ?_, ?_, ?_⟩
  · rw [idx25, hsub]
    rw [show ((indicesList labels mask).getD (r - 1) 0 : ℚ)
        + ((areasList labels mask).getD r 0 : ℚ) / 4 + 1 / 2
      = (((indicesList labels mask).getD (r - 1) 0 : ℕ) : ℚ)
        + (((areasList labels mask).getD r 0 : ℚ) / 4 + 1 / 2) by ring]
    rw [floor_nat_add_q _ _ (by positivity)]
    rfl
  · rw [idx50, hsub]
    rw [show ((indicesList labels mask).getD (r - 1) 0 : ℚ)
        + ((areasList labels mask).getD r 0 : ℚ) / 2 + 1 / 2
      = (((indicesList labels mask).getD (r - 1) 0 : ℕ) : ℚ)
        + (((areasList labels mask).getD r 0 : ℚ) / 2 + 1 / 2) by ring]
    rw [floor_nat_add_q _ _ (by positivity)]
    rfl
  · rw [idx75, hsub]
    rw [show ((indicesList labels mask).getD (r - 1) 0 : ℚ)
        + 3 * ((areasList labels mask).getD r 0 : ℚ) / 4 + 1 / 2
      = (((indicesList labels mask).getD (r - 1) 0 : ℕ) : ℚ)
        + (3 * ((areasList labels mask).getD r 0 : ℚ) / 4 + 1 / 2) by ring]
    rw [floor_nat_add_q _ _ (by positivity)]
    rfl
  · rw [median_intensity, if_pos hN, getD_map_range _ hidx, hsub]

/-- Claim C4, witness: region 1 of the 3x3 example instantiates
`claim_C4_rank_formula`, with starting rank 3 = background area 3 plus an
empty region sum. -/
theorem claim_C4_rank_formula_witness :
    (1 ≤ 1 ∧ 1 < nobjects exLab) ∧
    startingRank exLab none 1
      = (areasList exLab none).getD 0 0 + spec_start_excl_bg exLab none 1 := by
  refine ⟨⟨le_refl 1, by decide⟩, ?_⟩
  exact (claim_C4_rank_formula exImg exLab none 1 (le_refl 1) (by decide)).1

/-- Claim C5, confirmed.  Whenever the region with the highest id has
exactly one pixel, its median and upper-quartile target indices both equal
the total (masked) pixel count, which is the length of the sorted
composite-key array -- one past its last element -- so the gather of lines
307-312 is out of bounds (`IndexError` in numpy). -/
theorem claim_C5_out_of_bounds (img : List (List ℚ)) (labels : List (List ℕ))
    (mask : Option (List (List Bool)))
    (hshape : (imgSel img mask).length = (labelsSel labels mask).length)
    (hN : 1 < nobjects labels)
    (harea : (areasList labels mask).getD (nobjects labels - 1) 0 = 1) :
    idx50 labels mask (nobjects labels - 2) = (labelsSel labels mask).length ∧
    idx75 labels mask (nobjects labels - 2) = (labelsSel labels mask).length ∧
    ¬ (idx50 labels mask (nobjects labels - 2)
        < (ordered_image img labels mask).length) := by
  have hlen := areasList_length labels mask
  have hsum := areasList_sum labels mask
  have hsub : nobjects labels - 2 + 1 = nobjects labels - 1 := by omega
  have htake : ((areasList labels mask).take (nobjects labels - 1)).sum
      + (areasList labels mask).getD (nobjects labels - 1) 0
      = (areasList labels mask).sum := by
    apply take_sum_last
    omega
  have hT1 : 1 ≤ (labelsSel labels mask).length := by
    rw [harea, hsum] at htake
    omega
  have htk : ((areasList labels mask).take (nobjects labels - 1)).sum
      = (labelsSel labels mask).length - 1 := by
    rw [harea, hsum] at htake
    omega
  have hind : (indicesList labels mask).getD (nobjects labels - 2) 0
      = (labelsSel labels mask).length - 1 := by
    rw [indicesList_getD labels mask _ (by omega), hsub, htk]
  have h50 : idx50 labels mask (nobjects labels - 2)
      = (labelsSel labels mask).length := by
    rw [idx50, hsub, harea, hind]
    rw [show (((labelsSel labels mask).length - 1 : ℕ) : ℚ) + ((1:ℕ):ℚ) / 2 + 1 / 2
      = (((labelsSel labels mask).length - 1 : ℕ) : ℚ) + 1 by push_cast; ring]
    rw [floor_nat_add_q _ 1 (by norm_num)]
    rw [Nat.floor_one]
    omega
  refine ⟨h50, ?_, ?_⟩
  · rw [idx75, hsub, harea, hind]
    rw [show (((labelsSel labels mask).length - 1 : ℕ) : ℚ) + 3 * ((1:ℕ):ℚ) / 4 + 1 / 2
      = (((labelsSel labels mask).length - 1 : ℕ) : ℚ) + 5 / 4 by push_cast; ring]
    rw [floor_nat_add_q _ (5/4) (by norm_num)]
    have h54 : Nat.floor ((5:ℚ)/4) = 1 := by
      rw [Nat.floor_eq_iff] <;> norm_num
    rw [h54]
    omega
  · rw [h50, ordered_image_length img labels mask hshape]
    omega

/-- Claim C5, witness: the 2x2 input `oobLab` (background area 3, region 1
of area 1) drives the median gather index to 4 = total pixel count, outside
the length-4 sorted array. -/
theorem claim_C5_out_of_bounds_witness :
    ((imgSel oobImg none).length = (labelsSel oobLab none).length
      ∧ 1 < nobjects oobLab
      ∧ (areasList oobLab none).getD (nobjects oobLab - 1) 0 = 1) ∧
    ¬ (idx50 oobLab none (nobjects oobLab - 2)
        < (ordered_image oobImg oobLab none).length) := by
  refine ⟨⟨by decide, by decide, by decide⟩, ?_⟩
  exact (claim_C5_out_of_bounds oobImg oobLab none (by decide) (by decide)
    (by decide)).2.2

/-- Claim C6, counterexample.  `mixImg`/`mixLab` has a region with
integrated intensity exactly 0 but nonzero coordinate-weighted sums
(`i_x = 1`, `i_y = -1`): the divisions of lines 280-281 yield signed
infinities, not NaN, and the region's `MassDisplacement` comes out `+inf`
(its squared value is `pinf` and `np.sqrt` preserves it), so the claimed
"NaN for every region with zero integrated intensity" fails. -/
theorem claim_C6_counterexample :
    integrated_intensity_at mixImg mixLab none 1 = 0 ∧
    (mass_displacement_sq mixImg mixLab none).getD 0 FVal.nan = FVal.pinf ∧
    FVal.pinf ≠ FVal.nan := by
  refine ⟨?_, ?_, by simp⟩ <;>
    norm_num [mass_displacement_sq, mass_displacement_sq_at, cm_x, cm_y, i_x, i_y,
      cmi_x, cmi_y, integrated_intensity_at, masked_image_flat, masked_labels_flat,
      coordsX, coordsY, List.enum, List.enumFrom, List.replicate_succ, mixImg,
      mixLab, nobjects, flat2, imgSel, labelsSel, nd_sum, nd_mean, regionVals,
      regionCount, List.count, List.range_succ, FVal.div, FVal.sub, FVal.add,
      FVal.mul, FVal.neg]

/-- Claim C6, amended.  For every region whose integrated intensity is 0
*and* whose coordinate-weighted sum `i_x` or `i_y` is also 0 (always the
case when the intensities are nonnegative, since then every pixel of the
region has intensity 0), the 0/0 division of line 280/281 produces NaN and
it propagates into the region's `MassDisplacement` entry; no exception is
raised (numpy emits only a warning).  With mixed-sign intensities the
division can instead produce a signed infinity (see the counterexample). -/
theorem claim_C6_nan_mass_displacement (img : List (List ℚ)) (labels : List (List ℕ))
    (mask : Option (List (List Bool))) (r : ℕ)
    (hr : r < nobjects labels - 1)
    (hII : integrated_intensity_at img labels mask (1 + r) = 0)
    (hxy : i_x img labels mask (1 + r) = 0 ∨ i_y img labels mask (1 + r) = 0) :
    (mass_displacement_sq img labels mask).getD r FVal.nan = FVal.nan := by
  have hN : 1 < nobjects labels := by omega
  rw [mass_displacement_sq, if_pos hN, getD_map_drop_range _ hr]
  rcases hxy with hx | hy
  · simp only [mass_displacement_sq_at, cmi_x, hx, hII, FVal_div_zero_zero,
      FVal_sub_nan, FVal_nan_mul, FVal_nan_add]
  · simp only [mass_displacement_sq_at, cmi_y, hy, hII, FVal_div_zero_zero,
      FVal_sub_nan, FVal_nan_mul, FVal_add_nan]

/-- Claim C6, witness: the all-zero-intensity single-region input has
integrated intensity 0 and `i_x = 0`, and its `MassDisplacement` entry is
NaN. -/
theorem claim_C6_nan_mass_displacement_witness :
    (0 : ℕ) < nobjects oneRegLab - 1 ∧
    integrated_intensity_at oneRegImg oneRegLab none 1 = 0 ∧
    i_x oneRegImg oneRegLab none 1 = 0 ∧
    (mass_displacement_sq oneRegImg oneRegLab none).getD 0 FVal.nan = FVal.nan := by
  have h1 : (0 : ℕ) < nobjects oneRegLab - 1 := by decide
  have h2 : integrated_intensity_at oneRegImg oneRegLab none 1 = 0 := by
    norm_num [integrated_intensity_at, nd_sum, regionVals, imgSel, labelsSel, flat2,
      oneRegImg, oneRegLab]
  have h3 : i_x oneRegImg oneRegLab none 1 = 0 := by
    norm_num [i_x, coordsX, masked_image_flat, masked_labels_flat, nd_sum, regionVals,
      flat2, oneRegImg, oneRegLab, List.range_succ]
  exact ⟨h1, h2, h3,
    claim_C6_nan_mass_displacement oneRegImg oneRegLab none 0 h1 h2 (Or.inl h3)⟩

/-- Claim C7, confirmed.  For every region (0-based index `r`) whose
quantile indices are in bounds, the returned quantiles are ordered:
`LowerQuartileIntensity <= MedianIntensity <= UpperQuartileIntensity`.  The
target indices grow with the quantile (floor is monotone, areas are
nonnegative) and the composite-key array is sorted ascending, so the gathered
values are ordered; subtracting the same label value preserves the order. -/
theorem claim_C7_quantile_ordering (img : List (List ℚ)) (labels : List (List ℕ))
    (mask : Option (List (List Bool))) (r : ℕ)
    (hr : r < nobjects labels - 1)
    (hb : idx75 labels mask r < (ordered_image img labels mask).length) :
    (lower_quartile_intensity img labels mask).getD r 0
      ≤ (median_intensity img labels mask).getD r 0 ∧
    (median_intensity img labels mask).getD r 0
      ≤ (upper_quartile_intensity img labels mask).getD r 0 := by
  have hN : 1 < nobjects labels := by omega
  have hsorted : (ordered_image img labels mask).Sorted (· ≤ ·) :=
    List.sorted_insertionSort _ _
  have ha : (0:ℚ) ≤ ((areasList labels mask).getD (r + 1) 0 : ℚ) := by positivity
  have h2550 : idx25 labels mask r ≤ idx50 labels mask r := by
    apply Nat.floor_le_floor
    have : ((areasList labels mask).getD (r + 1) 0 : ℚ) / 4
        ≤ ((areasList labels mask).getD (r + 1) 0 : ℚ) / 2 := by linarith
    linarith
  have h5075 : idx50 labels mask r ≤ idx75 labels mask r := by
    apply Nat.floor_le_floor
    have : ((areasList labels mask).getD (r + 1) 0 : ℚ) / 2
        ≤ 3 * ((areasList labels mask).getD (r + 1) 0 : ℚ) / 4 := by linarith
    linarith
  rw [lower_quartile_intensity, median_intensity, upper_quartile_intensity,
    if_pos hN, if_pos hN, if_pos hN, getD_map_range _ hr, getD_map_range _ hr,
    getD_map_range _ hr]
  constructor
  · apply sub_le_sub_right
    exact sorted_getD_mono hsorted h2550 (Nat.lt_of_le_of_lt h5075 hb)
  · apply sub_le_sub_right
    exact sorted_getD_mono hsorted h5075 hb

/-- Claim C7, witness: region 1 of the 3x3 example has in-bounds indices
(its upper-quartile index 5 is below the 9-element sorted array) and ordered
quantiles. -/
theorem claim_C7_quantile_ordering_witness :
    idx75 exLab none 0 < (ordered_image exImg exLab none).length ∧
    (lower_quartile_intensity exImg exLab none).getD 0 0
      ≤ (median_intensity exImg exLab none).getD 0 0 := by
  have hb : idx75 exLab none 0 < (ordered_image exImg exLab none).length := by
    norm_num [idx75, indicesList, areasList, cumsum, regionCount, labelsSel, exLab,
      nobjects, flat2, List.count, List.range_succ, ordered_image, imgSel, exImg,
      List.insertionSort, List.orderedInsert, Nat.floor_lt]
  exact ⟨hb, (claim_C7_quantile_ordering exImg exLab none 0 (by decide) hb).1⟩

/-- Claim C8, confirmed.  Whenever the label array is no longer than the
value array (as holds for the equal-shape inputs of `run`, for interior as
well as boundary label arrays), the square of the grouped standard deviation
equals the population variance -- the mean of squared deviations from the
region mean, dividing by the pixel count -- and the population formula
differs from the sample (count-minus-one) formula, e.g. on the two-pixel
region `[0, 2]`. -/
theorem claim_C8_population_variance (vals : List ℚ) (lbls : List ℕ) (r : ℕ)
    (hlen : lbls.length ≤ vals.length) :
    nd_standard_deviation_sq vals lbls r = popVariance vals lbls r ∧
    popVariance [0, 2] [1, 1] 1 ≠ sampleVariance [0, 2] [1, 1] 1 := by
  constructor
  · have hl := regionVals_length vals lbls r hlen
    rcases eq_or_ne (regionCount lbls r) 0 with h0 | h0
    · have hnil : regionVals vals lbls r = [] := by
        rw [← List.length_eq_zero, hl, h0]
      simp [nd_standard_deviation_sq, popVariance, nd_mean, nd_sum, hnil, h0]
    · have hn : ((regionCount lbls r : ℚ)) ≠ 0 := by exact_mod_cast h0
      rw [nd_standard_deviation_sq, popVariance, sq_dev_sum, hl]
      rw [nd_mean, nd_sum]
      field_simp
      ring
  · norm_num [popVariance, sampleVariance, nd_mean, nd_sum, regionVals, regionCount,
      List.count]

/-- Claim C8, witness: direct instantiation on the region `[0, 2]` (whose
population variance is 1 and sample variance 2). -/
theorem claim_C8_population_variance_witness :
    nd_standard_deviation_sq [0, 2] [1, 1] 1 = popVariance [0, 2] [1, 1] 1 ∧
    popVariance [0, 2] [1, 1] 1 ≠ sampleVariance [0, 2] [1, 1] 1 :=
  claim_C8_population_variance [0, 2] [1, 1] 1 (by norm_num)

/-- Claim C9, confirmed.  The per-region areas of the order-statistic engine
conserve the pixel count: the background area (`areas[0]`) plus the areas of
regions `1 .. N` equals the number of masked (selected) pixels, for every
label matrix and optional mask. -/
theorem claim_C9_area_conservation (labels : List (List ℕ))
    (mask : Option (List (List Bool))) :
    (areasList labels mask).getD 0 0 + ((areasList labels mask).drop 1).sum
      = (labelsSel labels mask).length := by
  have hsum := areasList_sum labels mask
  have hne : areasList labels mask ≠ [] := by
    have hlen := areasList_length labels mask
    have h1 := one_le_nobjects labels
    intro hnil
    rw [hnil] at hlen
    simp at hlen
    omega
  cases hl : areasList labels mask with
  | nil => exact absurd hl hne
  | cons a t =>
    rw [hl] at hsum
    simpa using hsum

/-- Claim C10, confirmed.  In the heap model of the `run` body, for every
input image, label matrix, mask and outline function, the two input arrays
(heap addresses 0 and 1) are unchanged when the iteration completes, in both
the masked and the unmasked branch: every in-place write (`a[mask] = 0`,
`ordered_image.sort()`) targets an internally allocated copy or scratch
array. -/
theorem claim_C10_no_input_mutation (img labels : List ℚ) (m : List Bool)
    (outlineFn : List ℚ → List ℚ) :
    (runHeapMasked img labels m outlineFn 0 = img ∧
     runHeapMasked img labels m outlineFn 1 = labels) ∧
    (runHeapNoMask img labels outlineFn 0 = img ∧
     runHeapNoMask img labels outlineFn 1 = labels) := by
  refine ⟨⟨?_, ?_⟩, ?_, ?_⟩ <;> rfl

end MOI

